import Mathlib

/-!
Verification of the activity-tracker analysis pipeline (src/analysis.py).

The Python source is shallowly embedded over exact rationals: every Python
float value of the pipeline is modelled as a rational number, every float
sum as a rational sum.  External collaborators (the Fernet decryption
routine and the Python float-literal parser) are passed as explicit
function parameters; the empty string plays the failure-sentinel role that
the source gives it.  Fallible operations return Option / Except values.
-/

namespace ActivityTracker

/-- Mirror of the `ProductivityLevel` enum of the source: the three tier
markers attached to assessment messages. -/
inductive ProductivityLevel
  | EXCELLENT
  | GOOD
  | POOR
deriving DecidableEq, Repr

/-- Mirror of the `ActivityRecord` dataclass: one parsed activity interval.
`duration` is the decrypted duration in seconds. -/
structure ActivityRecord where
  start_time : String
  duration : ℚ
  is_afk : Bool
deriving DecidableEq, Repr

/-- Mirror of the `DailyMetrics` dataclass of the source. -/
structure DailyMetrics where
  total_hours : ℚ
  active_hours : ℚ
  inactive_hours : ℚ
  afk_hours : ℚ
  activity_rate : ℚ
  inactivity_rate : ℚ
  afk_rate : ℚ
  total_records : ℕ
deriving DecidableEq, Repr

/-- A raw record of the external JSON collection, with the two encrypted
opaque fields still as strings (mirror of the dictionaries that
`_parse_activity_record` consumes). -/
structure RawRecord where
  employee_id : String
  start_time : String
  duration_seconds : String
  is_afk : String
deriving DecidableEq, Repr

/-- Sum of the durations of all records: the `total_seconds` accumulator of
`_calculate_daily_metrics`. -/
def totalSeconds (records : List ActivityRecord) : ℚ :=
  (records.map (·.duration)).sum

/-- Sum of the durations of the records flagged afk: the `afk_seconds`
accumulator of `_calculate_daily_metrics`. -/
def afkSeconds (records : List ActivityRecord) : ℚ :=
  ((records.filter (·.is_afk)).map (·.duration)).sum

/-- Embedding of `_calculate_daily_metrics` (src/analysis.py lines
158-189).  The local Python variables are inlined: `active_seconds`
is `totalSeconds - afkSeconds`, `total_hours` is `totalSeconds / 3600`,
`active_hours` is `active_seconds / 3600`, `inactive_hours` is
`total_hours - active_hours`, and each rate guards its zero denominator
exactly as the source does. -/
def calculateDailyMetrics (records : List ActivityRecord) : DailyMetrics :=
  match records with
  | [] => ⟨0, 0, 0, 0, 0, 0, 0, 0⟩
  | _ :: _ =>
    { total_hours := totalSeconds records / 3600
      active_hours := (totalSeconds records - afkSeconds records) / 3600
      inactive_hours :=
        totalSeconds records / 3600 - (totalSeconds records - afkSeconds records) / 3600
      afk_hours := afkSeconds records / 3600
      activity_rate :=
        if 0 < totalSeconds records then
          (totalSeconds records - afkSeconds records) / totalSeconds records * 100
        else 0
      inactivity_rate :=
        if 0 < totalSeconds records / 3600 then
          (totalSeconds records / 3600 -
              (totalSeconds records - afkSeconds records) / 3600) /
            (totalSeconds records / 3600) * 100
        else 0
      afk_rate :=
        if 0 < totalSeconds records / 3600 then
          (afkSeconds records / 3600) / (totalSeconds records / 3600) * 100
        else 0
      total_records := records.length }

/-- C1: for every interval list, the DailyMetrics of the Metrics Calculator
satisfies total_hours = active_hours + inactive_hours and
inactive_hours = afk_hours (over exact rationals, hence within
floating-point tolerance in the source). -/
theorem calculateDailyMetrics_hour_identities (records : List ActivityRecord) :
    (calculateDailyMetrics records).total_hours =
        (calculateDailyMetrics records).active_hours +
          (calculateDailyMetrics records).inactive_hours ∧
      (calculateDailyMetrics records).inactive_hours =
        (calculateDailyMetrics records).afk_hours := by
  cases records with
  | nil => simp [calculateDailyMetrics]
  | cons r rs =>
    constructor
    · simp only [calculateDailyMetrics]
      ring
    · simp only [calculateDailyMetrics]
      ring

/-- On a list whose durations are all non-negative, the afk sum is
non-negative. -/
theorem afkSeconds_nonneg (records : List ActivityRecord)
    (h : ∀ r ∈ records, 0 ≤ r.duration) : 0 ≤ afkSeconds records := by
  unfold afkSeconds
  induction records with
  | nil => simp
  | cons r rs ih =>
    have hr := h r (List.mem_cons_self r rs)
    have hrs : ∀ x ∈ rs, 0 ≤ x.duration := fun x hx => h x (List.mem_cons_of_mem r hx)
    by_cases hafk : r.is_afk
    · simp only [List.filter_cons, hafk, if_true, List.map_cons, List.sum_cons]
      have := ih hrs
      linarith
    · simp only [List.filter_cons, hafk, Bool.false_eq_true, if_false]
      exact ih hrs

/-- On a list whose durations are all non-negative, the afk sum is at most
the total sum. -/
theorem afkSeconds_le_totalSeconds (records : List ActivityRecord)
    (h : ∀ r ∈ records, 0 ≤ r.duration) : afkSeconds records ≤ totalSeconds records := by
  unfold afkSeconds totalSeconds
  induction records with
  | nil => simp
  | cons r rs ih =>
    have hr := h r (List.mem_cons_self r rs)
    have hrs : ∀ x ∈ rs, 0 ≤ x.duration := fun x hx => h x (List.mem_cons_of_mem r hx)
    by_cases hafk : r.is_afk
    · simp only [List.filter_cons, hafk, if_true, List.map_cons, List.sum_cons]
      exact add_le_add_left (ih hrs) _
    · simp only [List.filter_cons, hafk, Bool.false_eq_true, if_false, List.map_cons,
        List.sum_cons]
      have := ih hrs
      linarith

/-- C2 counterexample: the claim asserts the rates lie in [0,100] for every
interval list, but the Calculator performs no sign validation, so a list
with a negative afk duration next to a positive non-afk one drives
activity_rate to 200, above 100. -/
theorem calculateDailyMetrics_rate_above_100 :
    100 <
      (calculateDailyMetrics
          [⟨"2025-01-01T09:00:00", 7200, false⟩,
            ⟨"2025-01-01T10:00:00", -3600, true⟩]).activity_rate := by
  norm_num [calculateDailyMetrics, totalSeconds, afkSeconds]

/-- C2 amended: for every interval list whose durations are all
non-negative (in particular the empty list), the three rate fields of the
Metrics Calculator lie in [0,100]; and for any interval list whatsoever,
each rate is exactly 0 when total_hours is 0. -/
theorem calculateDailyMetrics_rates_bounded :
    (∀ records : List ActivityRecord, (∀ r ∈ records, 0 ≤ r.duration) →
        (0 ≤ (calculateDailyMetrics records).activity_rate ∧
            (calculateDailyMetrics records).activity_rate ≤ 100) ∧
          (0 ≤ (calculateDailyMetrics records).inactivity_rate ∧
            (calculateDailyMetrics records).inactivity_rate ≤ 100) ∧
          (0 ≤ (calculateDailyMetrics records).afk_rate ∧
            (calculateDailyMetrics records).afk_rate ≤ 100)) ∧
      (∀ records : List ActivityRecord,
        (calculateDailyMetrics records).total_hours = 0 →
          (calculateDailyMetrics records).activity_rate = 0 ∧
            (calculateDailyMetrics records).inactivity_rate = 0 ∧
            (calculateDailyMetrics records).afk_rate = 0) := by
  constructor
  · intro records h
    have hA : 0 ≤ afkSeconds records := afkSeconds_nonneg records h
    have hAT : afkSeconds records ≤ totalSeconds records :=
      afkSeconds_le_totalSeconds records h
    cases records with
    | nil => simp [calculateDailyMetrics]
    | cons r rs =>
      set T := totalSeconds (r :: rs) with hT
      set A := afkSeconds (r :: rs) with hAdef
      simp only [calculateDailyMetrics]
      by_cases hpos : 0 < T
      · have hpos36 : 0 < T / 3600 := by positivity
        have hTA : 0 ≤ T - A := by linarith
        have hactive : (T - A) / T * 100 ≤ 100 := by
          have h1 : (T - A) / T ≤ 1 := by
            rw [div_le_one hpos]
            linarith
          nlinarith
        have hactive0 : 0 ≤ (T - A) / T * 100 := by
          have h1 : 0 ≤ (T - A) / T := div_nonneg hTA (le_of_lt hpos)
          linarith
        have hinkey : T / 3600 - (T - A) / 3600 = A / 3600 := by ring
        have hdiv0 : 0 ≤ A / 3600 / (T / 3600) :=
          div_nonneg (div_nonneg hA (by norm_num)) (le_of_lt hpos36)
        have hin0 : 0 ≤ (T / 3600 - (T - A) / 3600) / (T / 3600) * 100 := by
          rw [hinkey]
          linarith
        have hin100 : (T / 3600 - (T - A) / 3600) / (T / 3600) * 100 ≤ 100 := by
          rw [hinkey]
          have h1 : A / 3600 / (T / 3600) ≤ 1 := by
            rw [div_le_one hpos36]
            linarith
          nlinarith
        have hafk0 : 0 ≤ A / 3600 / (T / 3600) * 100 := by linarith
        have hafk100 : A / 3600 / (T / 3600) * 100 ≤ 100 := by
          have h1 : A / 3600 / (T / 3600) ≤ 1 := by
            rw [div_le_one hpos36]
            linarith
          nlinarith
        simp only [if_pos hpos, if_pos hpos36]
        exact ⟨⟨hactive0, hactive⟩, ⟨hin0, hin100⟩, ⟨hafk0, hafk100⟩⟩
      · have hpos36 : ¬ 0 < T / 3600 := by
          intro hc
          exact hpos (by linarith [(div_pos_iff.mp hc)])
        simp only [if_neg hpos, if_neg hpos36]
        norm_num
  · intro records hz
    cases records with
    | nil => exact ⟨rfl, rfl, rfl⟩
    | cons r rs =>
      simp only [calculateDailyMetrics] at hz ⊢
      have hT : totalSeconds (r :: rs) = 0 := by
        rcases div_eq_zero_iff.mp hz with h0 | h0
        · exact h0
        · exact absurd h0 (by norm_num)
      have h1 : ¬ 0 < totalSeconds (r :: rs) := by
        rw [hT]
        exact lt_irrefl 0
      have h2 : ¬ 0 < totalSeconds (r :: rs) / 3600 := by
        rw [hT]
        norm_num
      simp [if_neg h1, if_neg h2]

/-- Witness for the amended C2 theorem: the bounds branch at the
two-record example of the specification (one active hour, one afk hour)
and the zero branch at a list whose positive and negative durations cancel
to zero total hours. -/
theorem calculateDailyMetrics_rates_bounded_witness :
    (0 ≤ (calculateDailyMetrics
          [⟨"2025-01-01T09:00:00", 3600, false⟩,
            ⟨"2025-01-01T10:00:00", 3600, true⟩]).activity_rate ∧
        (calculateDailyMetrics
          [⟨"2025-01-01T09:00:00", 3600, false⟩,
            ⟨"2025-01-01T10:00:00", 3600, true⟩]).activity_rate ≤ 100) ∧
      (calculateDailyMetrics
          [⟨"2025-01-01T09:00:00", 3600, false⟩,
            ⟨"2025-01-01T10:00:00", -3600, true⟩]).activity_rate = 0 := by
  constructor
  · exact (calculateDailyMetrics_rates_bounded.1
      [⟨"2025-01-01T09:00:00", 3600, false⟩, ⟨"2025-01-01T10:00:00", 3600, true⟩]
      (by intro r hr; fin_cases hr <;> norm_num)).1
  · exact (calculateDailyMetrics_rates_bounded.2
      [⟨"2025-01-01T09:00:00", 3600, false⟩, ⟨"2025-01-01T10:00:00", -3600, true⟩]
      (by norm_num [calculateDailyMetrics, totalSeconds])).1

/-- C7: the Metrics Calculator applied to the empty interval list returns
the all-zero DailyMetrics (all four hour quantities, all three rates and
the record count are zero); being a total function, the computation raises
no division error. -/
theorem calculateDailyMetrics_empty :
    calculateDailyMetrics [] = ⟨0, 0, 0, 0, 0, 0, 0, 0⟩ := rfl

/-- Embedding of the accumulation loop of `analyze_all_dates_summary`
(src/analysis.py lines 565-588): the running `total_active_hours` and
`total_tracked_hours` sums, folded left over the per-day metrics in date
order starting from 0.0. -/
def analyzeAllDatesTotals (ms : List DailyMetrics) : ℚ × ℚ :=
  ms.foldl (fun acc m => (acc.1 + m.active_hours, acc.2 + m.total_hours)) (0, 0)

/-- Embedding of the `overall_activity_rate` computation of
`analyze_all_dates_summary` (src/analysis.py lines 596-600). -/
def overallActivityRate (ms : List DailyMetrics) : ℚ :=
  if 0 < (analyzeAllDatesTotals ms).2 then
    (analyzeAllDatesTotals ms).1 / (analyzeAllDatesTotals ms).2 * 100
  else 0

/-- The left fold of the summary loop computes the plain sums of the
active-hour and total-hour fields. -/
theorem analyzeAllDatesTotals_eq (ms : List DailyMetrics) :
    analyzeAllDatesTotals ms =
      ((ms.map (·.active_hours)).sum, (ms.map (·.total_hours)).sum) := by
  unfold analyzeAllDatesTotals
  suffices h : ∀ (init : ℚ × ℚ),
      ms.foldl (fun acc m => (acc.1 + m.active_hours, acc.2 + m.total_hours)) init =
        (init.1 + (ms.map (·.active_hours)).sum, init.2 + (ms.map (·.total_hours)).sum) by
    rw [h (0, 0)]
    simp
  induction ms with
  | nil => intro init; simp
  | cons m rest ih =>
    intro init
    simp only [List.foldl_cons, List.map_cons, List.sum_cons]
    rw [ih]
    refine Prod.ext ?_ ?_ <;> dsimp only <;> ring

/-- A sample day with one tracked, fully active hour. -/
def unequalDay1 : DailyMetrics := ⟨1, 1, 0, 0, 100, 0, 0, 1⟩

/-- A sample day with three tracked, fully afk hours. -/
def unequalDay2 : DailyMetrics := ⟨3, 0, 3, 3, 0, 100, 100, 1⟩

/-- C3: the overall activity rate of the Aggregation Reporter is the sum of
active hours divided by the sum of total hours times 100 when the summed
total hours is positive and 0 otherwise, and on the two sample days with
unequal totals (1h at 100 percent, 3h at 0 percent) it is 25, the ratio of
sums, not 50, the arithmetic mean of the two daily rates. -/
theorem overallActivityRate_ratio_of_sums :
    (∀ ms : List DailyMetrics,
        0 < (ms.map (·.total_hours)).sum →
          overallActivityRate ms =
            (ms.map (·.active_hours)).sum / (ms.map (·.total_hours)).sum * 100) ∧
      (∀ ms : List DailyMetrics,
        ¬ 0 < (ms.map (·.total_hours)).sum → overallActivityRate ms = 0) ∧
      unequalDay1.total_hours ≠ unequalDay2.total_hours ∧
      overallActivityRate [unequalDay1, unequalDay2] = 25 ∧
      (unequalDay1.activity_rate + unequalDay2.activity_rate) / 2 = 50 ∧
      overallActivityRate [unequalDay1, unequalDay2] ≠
        (unequalDay1.activity_rate + unequalDay2.activity_rate) / 2 := by
  have hrate : ∀ ms : List DailyMetrics,
      0 < (ms.map (·.total_hours)).sum →
        overallActivityRate ms =
          (ms.map (·.active_hours)).sum / (ms.map (·.total_hours)).sum * 100 := by
    intro ms hpos
    unfold overallActivityRate
    rw [analyzeAllDatesTotals_eq]
    exact if_pos hpos
  have hzero : ∀ ms : List DailyMetrics,
      ¬ 0 < (ms.map (·.total_hours)).sum → overallActivityRate ms = 0 := by
    intro ms hneg
    unfold overallActivityRate
    rw [analyzeAllDatesTotals_eq]
    exact if_neg hneg
  have hval : overallActivityRate [unequalDay1, unequalDay2] = 25 := by
    rw [hrate [unequalDay1, unequalDay2] (by norm_num [unequalDay1, unequalDay2])]
    norm_num [unequalDay1, unequalDay2]
  refine ⟨hrate, hzero, by norm_num [unequalDay1, unequalDay2], hval, ?_, ?_⟩
  · norm_num [unequalDay1, unequalDay2]
  · rw [hval]
    norm_num [unequalDay1, unequalDay2]

/-- Witness for C3: the ratio-of-sums branch applied to the two sample
days (summed totals 4 > 0) and the zero branch applied to the empty list. -/
theorem overallActivityRate_ratio_of_sums_witness :
    overallActivityRate [unequalDay1, unequalDay2] =
        ([unequalDay1, unequalDay2].map (·.active_hours)).sum /
          ([unequalDay1, unequalDay2].map (·.total_hours)).sum * 100 ∧
      overallActivityRate [] = 0 :=
  ⟨overallActivityRate_ratio_of_sums.1 [unequalDay1, unequalDay2]
      (by norm_num [unequalDay1, unequalDay2]),
    overallActivityRate_ratio_of_sums.2.1 [] (by norm_num)⟩

/-- Embedding of `_analyze_productivity_metrics` (src/analysis.py lines
191-254), abstracted to the tier marker that each appended assessment
string carries: the source appends exactly three messages, first the total
hours ladder, then the activity rate ladder, then the inactivity ladder,
with the same nested conditionals as here. -/
def analyzeProductivityLevels (m : DailyMetrics) : List ProductivityLevel :=
  [if 8 ≤ m.total_hours then .EXCELLENT
    else if 6 ≤ m.total_hours then .GOOD
    else .POOR,
   if 80 ≤ m.activity_rate then .EXCELLENT
    else if 60 ≤ m.activity_rate then .GOOD
    else .POOR,
   if m.inactivity_rate ≤ 20 then .EXCELLENT
    else if m.inactivity_rate ≤ 40 then .GOOD
    else .POOR]

/-- Tier ladders written from the threshold table of the specification,
with the two-sided middle tiers spelled out, for comparison against the
embedded source ladders. -/
def productivityTiersSpec (m : DailyMetrics) : List ProductivityLevel :=
  [if 8 ≤ m.total_hours then .EXCELLENT
    else if 6 ≤ m.total_hours ∧ m.total_hours < 8 then .GOOD
    else .POOR,
   if 80 ≤ m.activity_rate then .EXCELLENT
    else if 60 ≤ m.activity_rate ∧ m.activity_rate < 80 then .GOOD
    else .POOR,
   if m.inactivity_rate ≤ 20 then .EXCELLENT
    else if m.inactivity_rate ≤ 40 ∧ 20 < m.inactivity_rate then .GOOD
    else .POOR]

/-- Two three-way ladders agree when, under failure of the top condition,
their middle conditions are equivalent. -/
theorem ladder_eq (E G P : ProductivityLevel) (c1 c2 c3 : Prop) [Decidable c1]
    [Decidable c2] [Decidable c3] (h : ¬c1 → (c2 ↔ c3)) :
    (if c1 then E else if c2 then G else P) = (if c1 then E else if c3 then G else P) := by
  by_cases hc1 : c1
  · simp [hc1]
  · by_cases hc2 : c2
    · simp [hc1, hc2, (h hc1).mp hc2]
    · have hc3 : ¬c3 := fun hc => hc2 ((h hc1).mpr hc)
      simp [hc1, hc2, hc3]

/-- C4: the Productivity Assessor returns exactly three tiered judgments in
the order total hours, activity rate, inactivity rate, matching the
threshold table of the specification, and the boundary metrics land in the
claimed tiers: total hours 8.0 EXCELLENT, 7.999 GOOD, activity rate 60.0
GOOD, 59.999 POOR. -/
theorem analyzeProductivityLevels_correct :
    (∀ m : DailyMetrics, analyzeProductivityLevels m = productivityTiersSpec m) ∧
      (∀ m : DailyMetrics, (analyzeProductivityLevels m).length = 3) ∧
      analyzeProductivityLevels ⟨8, 0, 0, 0, 0, 0, 0, 0⟩ =
        [.EXCELLENT, .POOR, .EXCELLENT] ∧
      analyzeProductivityLevels ⟨7999 / 1000, 0, 0, 0, 0, 0, 0, 0⟩ =
        [.GOOD, .POOR, .EXCELLENT] ∧
      analyzeProductivityLevels ⟨0, 0, 0, 0, 60, 0, 0, 0⟩ =
        [.POOR, .GOOD, .EXCELLENT] ∧
      analyzeProductivityLevels ⟨0, 0, 0, 0, 59999 / 1000, 0, 0, 0⟩ =
        [.POOR, .POOR, .EXCELLENT] := by
  refine ⟨?_, ?_, ?_, ?_, ?_, ?_⟩
  · intro m
    simp only [analyzeProductivityLevels, productivityTiersSpec, List.cons.injEq, and_true]
    refine ⟨ladder_eq _ _ _ _ _ _ ?_, ladder_eq _ _ _ _ _ _ ?_, ladder_eq _ _ _ _ _ _ ?_⟩
    · exact fun h => ⟨fun h2 => ⟨h2, not_le.mp h⟩, fun hc => hc.1⟩
    · exact fun h => ⟨fun h2 => ⟨h2, not_le.mp h⟩, fun hc => hc.1⟩
    · exact fun h => ⟨fun h2 => ⟨h2, not_le.mp h⟩, fun hc => hc.1⟩
  · intro m
    simp [analyzeProductivityLevels]
  · norm_num [analyzeProductivityLevels]
  · norm_num [analyzeProductivityLevels]
  · norm_num [analyzeProductivityLevels]
  · norm_num [analyzeProductivityLevels]

/-- Model of the Python `str.lower` call of the parser, mapping the ASCII
lowering function over the characters; only the comparison against the
ASCII literal "true" depends on it. -/
def strLower (s : String) : String := ⟨s.data.map Char.toLower⟩

/-- Model of the Python `str.startswith` test used by the Record Filter:
the characters of `p` are a prefix of the characters of `s`. -/
def strStartsWith (s p : String) : Bool := p.data.isPrefixOf s.data

/-- Model of the Python slice `s[:n]` used by available-dates discovery. -/
def strTake (s : String) (n : ℕ) : String := ⟨s.data.take n⟩

/-- All-digit parse of a character list into a natural number, the helper
of `parseIntValue`. -/
def parseNatDigits (l : List Char) : Option ℕ :=
  if l ≠ [] ∧ l.all (·.isDigit) then
    some (l.foldl (fun acc c => 10 * acc + (c.toNat - 48)) 0)
  else none

/-- Concrete instance of the abstract duration parser used in closed
evaluations: on optionally signed decimal integer numerals it agrees with
the Python `float` builtin that the source calls. -/
def parseIntValue (s : String) : Option ℚ :=
  match s.data with
  | '-' :: rest => (parseNatDigits rest).map (fun n => -(n : ℚ))
  | l => (parseNatDigits l).map (fun n => (n : ℚ))

/-- Embedding of `_parse_activity_record` (src/analysis.py lines 122-139).
The Fernet decryption routine is the external collaborator `decrypt`,
returning the empty-string sentinel on failure as `_decrypt_field` does;
the Python `float` builtin is the external collaborator `pf`, returning
`none` where `float` raises `ValueError`.  The truthiness test
`if not duration_str or not afk_str` is the empty-string disjunction, and
the afk flag is the case-insensitive comparison with the literal "true". -/
def parseActivityRecord (decrypt : String → String) (pf : String → Option ℚ)
    (record : RawRecord) : Option ActivityRecord :=
  let duration_str := decrypt record.duration_seconds
  let afk_str := decrypt record.is_afk
  if duration_str = "" ∨ afk_str = "" then none
  else
    match pf duration_str with
    | none => none
    | some duration => some ⟨record.start_time, duration, strLower afk_str == "true"⟩

/-- C5: the Record Parser returns none when either decryption yields the
empty failure sentinel or the decrypted duration does not parse as a
number; otherwise it returns an interval whose afk flag is the
case-insensitive comparison of the decrypted afk string with "true" and
whose start time is the raw start time verbatim. -/
theorem parseActivityRecord_spec (decrypt : String → String) (pf : String → Option ℚ)
    (r : RawRecord) :
    (decrypt r.duration_seconds = "" ∨ decrypt r.is_afk = "" →
        parseActivityRecord decrypt pf r = none) ∧
      (pf (decrypt r.duration_seconds) = none → parseActivityRecord decrypt pf r = none) ∧
      (∀ d : ℚ, decrypt r.duration_seconds ≠ "" → decrypt r.is_afk ≠ "" →
        pf (decrypt r.duration_seconds) = some d →
        parseActivityRecord decrypt pf r =
          some ⟨r.start_time, d, strLower (decrypt r.is_afk) == "true"⟩) := by
  refine ⟨fun h => ?_, fun h => ?_, fun d h1 h2 h3 => ?_⟩ <;>
    simp only [parseActivityRecord]
  · rw [if_pos h]
  · split_ifs with he
    · rfl
    · rw [h]
  · rw [if_neg (not_or.mpr ⟨h1, h2⟩), h3]

/-- Witness for C5: a record whose fields decrypt (identity) to the
numeral 3600 and the flag TRUE parses to a 3600-second afk interval with
the start time kept verbatim. -/
theorem parseActivityRecord_spec_witness :
    parseActivityRecord id parseIntValue
        ⟨"EMP001", "2025-01-01T09:00:00", "3600", "TRUE"⟩ =
      some ⟨"2025-01-01T09:00:00", 3600, true⟩ := by
  have h := (parseActivityRecord_spec id parseIntValue
      ⟨"EMP001", "2025-01-01T09:00:00", "3600", "TRUE"⟩).2.2 3600
    (by decide) (by decide) (by decide)
  rw [h]
  decide

/-- Embedding of `_filter_records_by_date_and_employee` (src/analysis.py
lines 141-156): the loop keeps a raw record when its employee id equals the
configured identity and its start time starts with the target date, parses
it, and appends the parse result when it is not none. -/
def filterRecordsByDateAndEmployee (decrypt : String → String) (pf : String → Option ℚ)
    (employee_id target_date : String) : List RawRecord → List ActivityRecord
  | [] => []
  | record :: rest =>
    if record.employee_id = employee_id ∧
        strStartsWith record.start_time target_date = true then
      match parseActivityRecord decrypt pf record with
      | some parsed =>
        parsed :: filterRecordsByDateAndEmployee decrypt pf employee_id target_date rest
      | none => filterRecordsByDateAndEmployee decrypt pf employee_id target_date rest
    else filterRecordsByDateAndEmployee decrypt pf employee_id target_date rest

/-- The filter loop equals the composition of a predicate filter with the
parse filterMap. -/
theorem filterRecords_eq_filterMap (decrypt : String → String) (pf : String → Option ℚ)
    (employee_id target_date : String) (data : List RawRecord) :
    filterRecordsByDateAndEmployee decrypt pf employee_id target_date data =
      ((data.filter (fun r =>
          decide (r.employee_id = employee_id) &&
            strStartsWith r.start_time target_date)).filterMap
        (parseActivityRecord decrypt pf)) := by
  induction data with
  | nil => rfl
  | cons r rest ih =>
    simp only [filterRecordsByDateAndEmployee, List.filter_cons]
    by_cases h : r.employee_id = employee_id ∧ strStartsWith r.start_time target_date = true
    · rw [if_pos h]
      have hb : (decide (r.employee_id = employee_id) &&
          strStartsWith r.start_time target_date) = true := by
        rw [Bool.and_eq_true, decide_eq_true_eq]
        exact h
      rw [hb]
      simp only [if_true, List.filterMap_cons]
      cases hp : parseActivityRecord decrypt pf r with
      | none => rw [ih]
      | some parsed => rw [ih]
    · rw [if_neg h]
      have hb : (decide (r.employee_id = employee_id) &&
          strStartsWith r.start_time target_date) = false := by
        rw [Bool.and_eq_false_iff]
        by_cases he : r.employee_id = employee_id
        · right
          rcases Bool.eq_false_or_eq_true (strStartsWith r.start_time target_date) with hs | hs
          · exact absurd ⟨he, hs⟩ h
          · exact hs
        · left
          exact decide_eq_false he
      rw [hb]
      simp only [Bool.false_eq_true, if_false]
      exact ih

/-- C6: the Record Filter yields exactly the successful parses of the raw
records that match both the identity and the date prefix (failures are
dropped, nothing is substituted), and yields the empty list rather than an
error when nothing matches. -/
theorem filterRecords_spec (decrypt : String → String) (pf : String → Option ℚ)
    (employee_id target_date : String) (data : List RawRecord) :
    (∀ a : ActivityRecord,
        a ∈ filterRecordsByDateAndEmployee decrypt pf employee_id target_date data ↔
          ∃ r ∈ data, r.employee_id = employee_id ∧
            strStartsWith r.start_time target_date = true ∧
            parseActivityRecord decrypt pf r = some a) ∧
      ((∀ r ∈ data, ¬(r.employee_id = employee_id ∧
          strStartsWith r.start_time target_date = true)) →
        filterRecordsByDateAndEmployee decrypt pf employee_id target_date data = []) := by
  rw [filterRecords_eq_filterMap]
  constructor
  · intro a
    simp only [List.mem_filterMap, List.mem_filter, Bool.and_eq_true, decide_eq_true_eq]
    constructor
    · rintro ⟨r, ⟨hmem, he, hs⟩, hp⟩
      exact ⟨r, hmem, he, hs, hp⟩
    · rintro ⟨r, hmem, he, hs, hp⟩
      exact ⟨r, ⟨hmem, he, hs⟩, hp⟩
  · intro h
    have hfil : (data.filter (fun r =>
        decide (r.employee_id = employee_id) &&
          strStartsWith r.start_time target_date)) = [] := by
      rw [List.filter_eq_nil_iff]
      intro r hmem
      rw [Bool.and_eq_true, decide_eq_true_eq]
      exact h r hmem
    rw [hfil]
    rfl

/-- Witness for C6: on a single raw record held by a different employee,
the filter returns the empty list. -/
theorem filterRecords_spec_witness :
    filterRecordsByDateAndEmployee id parseIntValue "EMP001" "2025-01-01"
      [⟨"OTHER", "2025-01-01T09:00:00", "3600", "true"⟩] = [] :=
  (filterRecords_spec id parseIntValue "EMP001" "2025-01-01"
      [⟨"OTHER", "2025-01-01T09:00:00", "3600", "true"⟩]).2
    (by intro r hr; fin_cases hr; decide)

/-- C10: the parser performs no sign or range validation: a record whose
duration field decrypts to the numeral -3600 parses to an interval with
duration -3600, and the Metrics Calculator folds that negative duration
into its sums unchanged, so the non-negativity stated for the data model is
enforced nowhere. -/
theorem negativeDuration_unvalidated :
    parseActivityRecord id parseIntValue
        ⟨"EMP001", "2025-01-01T09:00:00", "-3600", "false"⟩ =
        some ⟨"2025-01-01T09:00:00", -3600, false⟩ ∧
      (calculateDailyMetrics [⟨"2025-01-01T09:00:00", -3600, false⟩]).total_hours = -1 ∧
      (calculateDailyMetrics [⟨"2025-01-01T09:00:00", -3600, false⟩]).active_hours = -1 := by
  refine ⟨by decide, ?_, ?_⟩ <;>
    norm_num [calculateDailyMetrics, totalSeconds, afkSeconds]

/-- Outcome of the external file read that `_load_activity_data` wraps:
the file is absent, the JSON body is malformed, or a record list was
decoded. -/
inductive ReadOutcome where
  | missing
  | badJson (msg : String)
  | ok (data : List RawRecord)
deriving DecidableEq, Repr

/-- Embedding of `_load_activity_data` (src/analysis.py lines 95-110): a
missing file raises FileNotFoundError naming the data file, a JSON decode
error is logged and re-raised, and any other load error is logged and
re-raised; success returns the decoded records.  Raising to the caller is
the error branch of the Except value. -/
def loadActivityData (data_file : String) (outcome : ReadOutcome) :
    Except String (List RawRecord) :=
  match outcome with
  | .missing => .error ("Activity data file not found: " ++ data_file)
  | .badJson msg => .error msg
  | .ok data => .ok data

/-- Embedding of `get_available_dates` (src/analysis.py lines 293-309):
on a successful load it collects the 10-character prefixes of the start
times of the records of the configured employee whose start time has at
least 10 characters, deduplicates them as the Python set does, and sorts
ascending; the surrounding try/except turns any load failure into the
empty list. -/
def getAvailableDates (employee_id data_file : String) (outcome : ReadOutcome) :
    List String :=
  match loadActivityData data_file outcome with
  | .error _ => []
  | .ok data =>
    List.insertionSort (· ≤ ·)
      ((data.filterMap fun r =>
          if r.employee_id = employee_id ∧ 10 ≤ r.start_time.data.length then
            some (strTake r.start_time 10)
          else none).dedup)

/-- C8 counterexample: the claim says a collection-level load failure is
never silently converted into an empty result, but available-dates
discovery catches the missing-file failure and returns the empty list. -/
theorem getAvailableDates_swallows_load_failure :
    getAvailableDates "EMP001" "activity.json" ReadOutcome.missing = [] := rfl

/-- C8 amended: the load operation itself surfaces both failure kinds to
its caller, the missing-file one naming the originating file, but
available-dates discovery catches any load failure and returns the empty
list instead of propagating it. -/
theorem loadFailure_handling (data_file msg employee_id : String) :
    loadActivityData data_file ReadOutcome.missing =
        Except.error ("Activity data file not found: " ++ data_file) ∧
      loadActivityData data_file (ReadOutcome.badJson msg) = Except.error msg ∧
      getAvailableDates employee_id data_file ReadOutcome.missing = [] ∧
      getAvailableDates employee_id data_file (ReadOutcome.badJson msg) = [] :=
  ⟨rfl, rfl, rfl, rfl⟩

/-- C9: on a successfully loaded collection, available-dates discovery
returns an ascending, duplicate-free list holding exactly the 10-character
start-time prefixes of the records of the configured employee (records
whose start time is shorter than 10 characters have no such prefix and are
skipped by the source). -/
theorem getAvailableDates_spec (employee_id data_file : String) (data : List RawRecord) :
    List.Sorted (· ≤ ·) (getAvailableDates employee_id data_file (ReadOutcome.ok data)) ∧
      (getAvailableDates employee_id data_file (ReadOutcome.ok data)).Nodup ∧
      ∀ s : String,
        (s ∈ getAvailableDates employee_id data_file (ReadOutcome.ok data) ↔
          ∃ r ∈ data, r.employee_id = employee_id ∧ 10 ≤ r.start_time.data.length ∧
            s = strTake r.start_time 10) := by
  refine ⟨List.sorted_insertionSort _ _, ?_, ?_⟩
  · exact (List.perm_insertionSort _ _).nodup_iff.mpr (List.nodup_dedup _)
  · intro s
    simp only [getAvailableDates, loadActivityData]
    rw [(List.perm_insertionSort _ _).mem_iff, List.mem_dedup, List.mem_filterMap]
    constructor
    · rintro ⟨r, hmem, hif⟩
      by_cases hc : r.employee_id = employee_id ∧ 10 ≤ r.start_time.data.length
      · rw [if_pos hc, Option.some.injEq] at hif
        exact ⟨r, hmem, hc.1, hc.2, hif.symm⟩
      · rw [if_neg hc] at hif
        exact absurd hif (Option.noConfusion)
    · rintro ⟨r, hmem, he, hl, hs⟩
      exact ⟨r, hmem, by rw [if_pos ⟨he, hl⟩, hs]⟩

end ActivityTracker
